import Mathlib

/-!
Verification development for `launch_ec2_spots.py`, a script that launches
EC2 spot instances from a JSON launch specification, waits for the spot
requests to fulfill, cancels the whole batch on practically-terminal
failures or user interrupt, and resolves the launched instances to
`(InstanceId, PublicIpAddress, PrivateIpAddress)` records.

The Python source is embedded shallowly: each provider call site becomes a
parameter of the model (an `Except` outcome or an event trace), dict lookups
on provider JSON become `Option` fields, and exceptions become explicit
result constructors.  `subprocess.check_output` raises on a failing command,
so every provider call - including the cancellation calls - is modelled as
fallible.
-/

set_option autoImplicit false

namespace LaunchEC2Spots

/-- Status codes treated as practically terminal by
`_wait_for_launch_requests_to_fulfill` (lines 183-188 of the source): the
branch that cancels the whole batch and then raises `EnvironmentError`. -/
def practicallyTerminalCodes : List String :=
  ["constraint-not-fulfillable", "capacity-not-available", "az-group-constraint",
   "placement-group-constraint", "capacity-oversubscribed", "launch-group-constraint"]

/-- Genuinely terminal status codes (lines 196-199 of the source): the branch
that raises `EnvironmentError` without cancelling anything. -/
def terminalCodes : List String :=
  ["system-error", "bad-parameters", "schedule-expired", "canceled-before-fulfillment"]

/-- One entry of the `describe-spot-instance-requests` snapshot:
`SpotInstanceRequestId`, `Status.Code`, `Status.Message`. -/
structure SpotRequestEntry where
  spotInstanceRequestId : String
  statusCode : String
  statusMessage : String
deriving DecidableEq

/-- Outcome of examining one snapshot inside the polling loop.
`next` is falling off the `for` with the remaining waiting count;
`cancelledAndRaised` is the practically-terminal branch (cancel of the whole
batch succeeded, then `EnvironmentError(code, message)` raised);
`raisedTerminal` is the terminal branch (raise, no cancel);
`cancelCallRaised` is the practically-terminal branch when the cancel
`subprocess.check_output` call itself fails, so the `CalledProcessError`
propagates instead of the `EnvironmentError`. -/
inductive CycleOutcome where
  | next (waiting : Nat)
  | cancelledAndRaised (cancelled : List String) (code : String) (msg : String)
  | raisedTerminal (code : String) (msg : String)
  | cancelCallRaised (attempted : List String)
deriving DecidableEq

/-- The `for instanceRequest in requestsData['SpotInstanceRequests']` loop of
`_wait_for_launch_requests_to_fulfill`, lines 179-200.  `cancelFails` models
whether the provider cancel call at line 194 fails.  The Python
`sirWaitingCount -= 1` can drive the count negative only past zero, and the
loop exit test is `> 0`, so Nat truncated subtraction is exit-equivalent. -/
def examineRequests (cancelFails : Bool) (sirIDList : List String) :
    List SpotRequestEntry → Nat → CycleOutcome
  | [], waiting => .next waiting
  | e :: rest, waiting =>
    if e.spotInstanceRequestId ∈ sirIDList then
      if e.statusCode = "fulfilled" then
        examineRequests cancelFails sirIDList rest (waiting - 1)
      else if e.statusCode ∈ practicallyTerminalCodes then
        if cancelFails then .cancelCallRaised sirIDList
        else .cancelledAndRaised sirIDList e.statusCode e.statusMessage
      else if e.statusCode ∈ terminalCodes then
        .raisedTerminal e.statusCode e.statusMessage
      else
        examineRequests cancelFails sirIDList rest waiting
    else
      examineRequests cancelFails sirIDList rest waiting

/-- One polling cycle: reset `sirWaitingCount = len(sirIDList)` (line 177)
and examine the fresh snapshot. -/
def processSnapshot (cancelFails : Bool) (sirIDList : List String)
    (snapshot : List SpotRequestEntry) : CycleOutcome :=
  examineRequests cancelFails sirIDList snapshot sirIDList.length

/-- What the environment delivers at each suspension point of the wait loop:
either a fresh `describe-spot-instance-requests` snapshot, or a
`KeyboardInterrupt` arriving during the sleep / provider call. -/
inductive Event where
  | snap (snapshot : List SpotRequestEntry)
  | interrupt
deriving DecidableEq

/-- Result of `_wait_for_launch_requests_to_fulfill`.  `exhausted` means the
event trace ran out while requests were still pending (the real loop would
keep polling forever). -/
inductive WaitResult where
  | fulfilled
  | provisioningFailed (code : String) (msg : String)
  | keyboardInterrupt
  | transportError
  | exhausted
deriving DecidableEq

/-- The `while sirWaitingCount > 0` loop, lines 169-200, run against an event
trace.  Returns the result together with the list of cancel calls issued
(each cancel call covers one identifier list). -/
def waitLoop (cancelFails : Bool) (sirIDList : List String) :
    Nat → List Event → WaitResult × List (List String)
  | 0, _ => (.fulfilled, [])
  | _ + 1, [] => (.exhausted, [])
  | _ + 1, .interrupt :: _ => (.keyboardInterrupt, [])
  | _ + 1, .snap s :: rest =>
    match processSnapshot cancelFails sirIDList s with
    | .next w => waitLoop cancelFails sirIDList w rest
    | .cancelledAndRaised c code msg => (.provisioningFailed code msg, [c])
    | .raisedTerminal code msg => (.provisioningFailed code msg, [])
    | .cancelCallRaised c => (.transportError, [c])

/-- `_wait_for_launch_requests_to_fulfill(sirIDList, ...)`: the waiting count
starts at `len(sirIDList)` (line 168). -/
def wait_for_launch_requests_to_fulfill (cancelFails : Bool)
    (sirIDList : List String) (events : List Event) :
    WaitResult × List (List String) :=
  waitLoop cancelFails sirIDList sirIDList.length events

/-- The `Placement` object of a launch specification; the source reads its
`AvailabilityZone` member (lines 103-110). -/
structure Placement where
  availabilityZone : String
deriving DecidableEq

/-- The launcher-relevant view of the parsed launch specification:
the two mandatory launcher-only fields and the optional `Placement`. -/
structure LaunchSpec where
  instanceCount : Option String
  maxSpotPrice : Option String
  placement : Option Placement
deriving DecidableEq

/-- Python `s[-1:].isdigit()` for the zone string: true when the string is
nonempty and its last character is a digit. -/
def lastCharIsDigit (s : String) : Bool :=
  match s.toList.getLast? with
  | some c => c.isDigit
  | none => false

/-- Python `s[:-1]`: the string with its last character removed. -/
def dropLastChar (s : String) : String :=
  String.mk s.toList.dropLast

/-- Lines 101-110 of `_process_launch_spec`: derive the `--region` switch
from `Placement.AvailabilityZone` and decide whether `Placement` stays in
the outgoing payload. -/
def regionSwitchAndPlacement (placement : Option Placement) :
    String × Option Placement :=
  match placement with
  | none => ("", none)
  | some p =>
    if p.availabilityZone = "" then ("", some p)
    else if lastCharIsDigit p.availabilityZone then
      (" --region " ++ p.availabilityZone ++ " ", none)
    else
      (" --region " ++ dropLastChar p.availabilityZone ++ " ", some p)

/-- The tuple returned by `_process_launch_spec`; the payload is represented
by the `Placement` field that remains in it. -/
structure LaunchParams where
  instanceCount : String
  maxSpotPrice : String
  region_switch : String
  placementInPayload : Option Placement
deriving DecidableEq

/-- `_process_launch_spec`, restricted to the fields the provisioning
lifecycle uses: mandatory-field validation (lines 89-97) and region
derivation (lines 101-110).  Errors are the `EnvironmentError` messages. -/
def process_launch_spec (ls : LaunchSpec) : Except String LaunchParams :=
  match ls.instanceCount with
  | none => .error "INSTANCE_COUNT missing from launch configuration."
  | some c =>
    match ls.maxSpotPrice with
    | none => .error "MAX_SPOT_PRICE missing from launch configuration."
    | some m =>
      let rp := regionSwitchAndPlacement ls.placement
      .ok ⟨c, m, rp.1, rp.2⟩

/-- One instance record from `describe-instances`.  `spotInstanceRequestId`,
`publicIpAddress` and `privateIpAddress` are optional JSON members; the
source guards only `SpotInstanceRequestId` with an `in` test and reads the
two addresses unconditionally (lines 243-245). -/
structure InstanceRecord where
  instanceId : String
  spotInstanceRequestId : Option String
  publicIpAddress : Option String
  privateIpAddress : Option String
deriving DecidableEq

/-- One element of the returned `launchedInstanceList`. -/
structure ResolvedInstance where
  instanceId : String
  publicIpAddress : String
  privateIpAddress : String
deriving DecidableEq

/-- The list comprehension at lines 242-245: keep instances whose
`SpotInstanceRequestId` is present and in `sirIDList`, and project each to
`(InstanceId, PublicIpAddress, PrivateIpAddress)` with unguarded dict
accesses, so a missing address raises `KeyError` for the whole resolution. -/
def resolveLoop (sirIDList : List String) :
    List InstanceRecord → Except String (List ResolvedInstance)
  | [] => .ok []
  | r :: rest =>
    match r.spotInstanceRequestId with
    | some id =>
      if id ∈ sirIDList then
        match r.publicIpAddress with
        | none => .error "KeyError: PublicIpAddress"
        | some pub =>
          match r.privateIpAddress with
          | none => .error "KeyError: PrivateIpAddress"
          | some priv =>
            match resolveLoop sirIDList rest with
            | .error e => .error e
            | .ok l => .ok (⟨r.instanceId, pub, priv⟩ :: l)
      else resolveLoop sirIDList rest
    | none => resolveLoop sirIDList rest

/-- The exceptions that can escape `launch_EC2_spot_instances`:
`EnvironmentError(args)`, `KeyboardInterrupt`, or any other exception from
the aws client / json / dict access (`CalledProcessError`, `KeyError`, ...),
which `__main__` handles with the generic `except Exception` branch. -/
inductive Err where
  | environmentError (args : List String)
  | keyboardInterrupt
  | otherException (msg : String)
deriving DecidableEq

/-- The provider-side behaviour of one run: the outcome of each provider
call site of `launch_EC2_spot_instances`. -/
structure AwsWorld where
  submitOutcome : Except Err (List String)
  waitEvents : List Event
  cancelFails : Bool
  describeOutcome : Except Err (List InstanceRecord)
  initOutcome : Except Err Unit

/-- Observable side effects of one run: whether `amils_temp.json` exists,
which cancel calls were issued, and whether instance resolution and the
full-init wait were reached. -/
structure RunState where
  tempExists : Bool
  cancels : List (List String)
  resolvedCalled : Bool
  initWaitCalled : Bool
deriving DecidableEq

def initialRunState : RunState :=
  { tempExists := false, cancels := [], resolvedCalled := false, initWaitCalled := false }

/-- How `launch_EC2_spot_instances` ends: normal return, an exception, or
never (the polling loop still waiting when the trace ends). -/
inductive LaunchOutcome where
  | returns (l : List ResolvedInstance)
  | raises (e : Err)
  | hangs
deriving DecidableEq

/-- `launch_EC2_spot_instances`, lines 203-253.  `specOutcome` abstracts
`_process_launch_spec` (which may raise); the temp file is written before
the submit call (line 220) and removed right after it parses (line 225);
only `KeyboardInterrupt` from the wait is caught, answered with a cancel of
the whole batch, and re-raised (lines 231-237); a `KeyError` from the
resolution comprehension propagates as a generic exception. -/
def launch_EC2_spot_instances (specOutcome : Except Err Unit) (w : AwsWorld)
    (wait_for_full_initialization_flag : Bool) : LaunchOutcome × RunState :=
  match specOutcome with
  | .error e => (.raises e, initialRunState)
  | .ok _ =>
    let st1 : RunState := { initialRunState with tempExists := true }
    match w.submitOutcome with
    | .error e => (.raises e, st1)
    | .ok sirIDList =>
      let st2 : RunState := { st1 with tempExists := false }
      match wait_for_launch_requests_to_fulfill w.cancelFails sirIDList w.waitEvents with
      | (.fulfilled, cs) =>
        let st3 : RunState := { st2 with cancels := cs }
        match w.describeOutcome with
        | .error e => (.raises e, st3)
        | .ok instancesData =>
          let st4 : RunState := { st3 with resolvedCalled := true }
          match resolveLoop sirIDList instancesData with
          | .error msg => (.raises (.otherException msg), st4)
          | .ok launchedInstanceList =>
            if wait_for_full_initialization_flag then
              match w.initOutcome with
              | .error e => (.raises e, { st4 with initWaitCalled := true })
              | .ok _ => (.returns launchedInstanceList, { st4 with initWaitCalled := true })
            else (.returns launchedInstanceList, st4)
      | (.provisioningFailed code msg, cs) =>
        (.raises (.environmentError [code, msg]), { st2 with cancels := cs })
      | (.keyboardInterrupt, cs) =>
        if w.cancelFails then
          (.raises (.otherException "CalledProcessError"), { st2 with cancels := cs ++ [sirIDList] })
        else
          (.raises .keyboardInterrupt, { st2 with cancels := cs ++ [sirIDList] })
      | (.transportError, cs) =>
        (.raises (.otherException "CalledProcessError"), { st2 with cancels := cs })
      | (.exhausted, cs) => (.hangs, { st2 with cancels := cs })

/-- Process exit of the `__main__` block. -/
inductive MainExit where
  | exitOk
  | exitErr
  | hang
deriving DecidableEq

/-- The `__main__` driver, lines 300-345: every exception handler
(`EnvironmentError`, `KeyboardInterrupt`, generic `Exception`) does a
guarded `os.remove("amils_temp.json")` before `os._exit(1)`. -/
def main_invocation (specOutcome : Except Err Unit) (w : AwsWorld)
    (wait_for_full_initialization_flag : Bool) : MainExit × RunState :=
  match launch_EC2_spot_instances specOutcome w wait_for_full_initialization_flag with
  | (.returns _, st) => (.exitOk, st)
  | (.raises _, st) => (.exitErr, { st with tempExists := false })
  | (.hangs, st) => (.hang, st)

/-- Membership test used by the fulfillment counting lemmas: a snapshot
entry that is tracked and reports the fulfilled code. -/
def isTrackedFulfilled (sirIDList : List String) (e : SpotRequestEntry) : Bool :=
  decide (e.spotInstanceRequestId ∈ sirIDList) && decide (e.statusCode = "fulfilled")

/-- Identifier `id` is reported fulfilled somewhere in snapshot `s`. -/
def fulfilledIn (s : List SpotRequestEntry) (id : String) : Prop :=
  ∃ e ∈ s, e.spotInstanceRequestId = id ∧ e.statusCode = "fulfilled"

instance (s : List SpotRequestEntry) (id : String) : Decidable (fulfilledIn s id) :=
  inferInstanceAs (Decidable (∃ e ∈ s, e.spotInstanceRequestId = id ∧ e.statusCode = "fulfilled"))

/-! ## Helper lemmas about the snapshot examination loop -/

/-- If `e` is the unique tracked entry of `s` whose code is practically
terminal or terminal, and its code is practically terminal, the examination
loop ends in the practically-terminal branch at `e`. -/
theorem examineRequests_first_practical (cancelFails : Bool) (sirIDList : List String)
    (e : SpotRequestEntry) (ht : e.spotInstanceRequestId ∈ sirIDList)
    (hp : e.statusCode ∈ practicallyTerminalCodes) :
    ∀ s : List SpotRequestEntry, e ∈ s →
      (∀ e2 ∈ s, e2.spotInstanceRequestId ∈ sirIDList →
        e2.statusCode ∈ practicallyTerminalCodes ∨ e2.statusCode ∈ terminalCodes → e2 = e) →
      ∀ waiting : Nat, examineRequests cancelFails sirIDList s waiting =
        if cancelFails then CycleOutcome.cancelCallRaised sirIDList
        else CycleOutcome.cancelledAndRaised sirIDList e.statusCode e.statusMessage := by
  intro s
  induction s with
  | nil => intro he; cases he
  | cons h0 rest ih =>
    intro he honly waiting
    by_cases htr : h0.spotInstanceRequestId ∈ sirIDList
    · by_cases hf : h0.statusCode = "fulfilled"
      · have hne : e ≠ h0 := by
          intro hEq
          have : e.statusCode = "fulfilled" := by rw [hEq, hf]
          rw [this] at hp
          simp [practicallyTerminalCodes] at hp
        have herest : e ∈ rest := by
          rcases List.mem_cons.mp he with h | h
          · exact absurd h hne
          · exact h
        simp only [examineRequests, if_pos htr, if_pos hf]
        exact ih herest (fun e2 h2 => honly e2 (List.mem_cons_of_mem _ h2)) (waiting - 1)
      · by_cases hpr : h0.statusCode ∈ practicallyTerminalCodes
        · have h0e : h0 = e := honly h0 (List.mem_cons_self _ _) htr (Or.inl hpr)
          subst h0e
          simp only [examineRequests, if_pos htr, if_neg hf, if_pos hpr]
        · by_cases hterm : h0.statusCode ∈ terminalCodes
          · have h0e : h0 = e := honly h0 (List.mem_cons_self _ _) htr (Or.inr hterm)
            rw [h0e] at hpr
            exact absurd hp hpr
          · have hne : e ≠ h0 := fun hEq => hpr (hEq ▸ hp)
            have herest : e ∈ rest := by
              rcases List.mem_cons.mp he with h | h
              · exact absurd h hne
              · exact h
            simp only [examineRequests, if_pos htr, if_neg hf, if_neg hpr, if_neg hterm]
            exact ih herest (fun e2 h2 => honly e2 (List.mem_cons_of_mem _ h2)) waiting
    · have hne : e ≠ h0 := fun hEq => htr (hEq ▸ ht)
      have herest : e ∈ rest := by
        rcases List.mem_cons.mp he with h | h
        · exact absurd h hne
        · exact h
      simp only [examineRequests, if_neg htr]
      exact ih herest (fun e2 h2 => honly e2 (List.mem_cons_of_mem _ h2)) waiting

/-- A `cancelledAndRaised` outcome always cancels exactly the tracked batch
and always carries a practically-terminal code. -/
theorem examineRequests_cancelled (cancelFails : Bool) (sirIDList : List String) :
    ∀ (s : List SpotRequestEntry) (waiting : Nat) (c : List String) (code msg : String),
      examineRequests cancelFails sirIDList s waiting = .cancelledAndRaised c code msg →
      c = sirIDList ∧ code ∈ practicallyTerminalCodes := by
  intro s
  induction s with
  | nil => intro waiting c code msg h; simp [examineRequests] at h
  | cons h0 rest ih =>
    intro waiting c code msg h
    by_cases htr : h0.spotInstanceRequestId ∈ sirIDList
    · by_cases hf : h0.statusCode = "fulfilled"
      · simp only [examineRequests, if_pos htr, if_pos hf] at h
        exact ih _ _ _ _ h
      · by_cases hpr : h0.statusCode ∈ practicallyTerminalCodes
        · simp only [examineRequests, if_pos htr, if_neg hf, if_pos hpr] at h
          cases cancelFails with
          | false =>
            simp only [Bool.false_eq_true, if_neg] at h
            cases h
            exact ⟨rfl, hpr⟩
          | true => simp at h
        · by_cases hterm : h0.statusCode ∈ terminalCodes
          · simp [examineRequests, if_pos htr, if_neg hf, if_neg hpr, if_pos hterm] at h
          · simp only [examineRequests, if_pos htr, if_neg hf, if_neg hpr, if_neg hterm] at h
            exact ih _ _ _ _ h
    · simp only [examineRequests, if_neg htr] at h
      exact ih _ _ _ _ h

/-- A `raisedTerminal` outcome always carries a genuinely terminal code. -/
theorem examineRequests_terminal (cancelFails : Bool) (sirIDList : List String) :
    ∀ (s : List SpotRequestEntry) (waiting : Nat) (code msg : String),
      examineRequests cancelFails sirIDList s waiting = .raisedTerminal code msg →
      code ∈ terminalCodes := by
  intro s
  induction s with
  | nil => intro waiting code msg h; simp [examineRequests] at h
  | cons h0 rest ih =>
    intro waiting code msg h
    by_cases htr : h0.spotInstanceRequestId ∈ sirIDList
    · by_cases hf : h0.statusCode = "fulfilled"
      · simp only [examineRequests, if_pos htr, if_pos hf] at h
        exact ih _ _ _ h
      · by_cases hpr : h0.statusCode ∈ practicallyTerminalCodes
        · simp only [examineRequests, if_pos htr, if_neg hf, if_pos hpr] at h
          cases cancelFails <;> simp_all
        · by_cases hterm : h0.statusCode ∈ terminalCodes
          · simp only [examineRequests, if_pos htr, if_neg hf, if_neg hpr, if_pos hterm] at h
            cases h
            exact hterm
          · simp only [examineRequests, if_pos htr, if_neg hf, if_neg hpr, if_neg hterm] at h
            exact ih _ _ _ h
    · simp only [examineRequests, if_neg htr] at h
      exact ih _ _ _ h

/-- Every `provisioningFailed` exit of the wait loop (with succeeding cancel
calls) either carries a practically-terminal code with exactly one cancel
call covering the whole batch, or a terminal code with no cancel call. -/
theorem waitLoop_provisioningFailed (sirIDList : List String) :
    ∀ (events : List Event) (waiting : Nat) (code msg : String) (cs : List (List String)),
      waitLoop false sirIDList waiting events = (.provisioningFailed code msg, cs) →
      (code ∈ practicallyTerminalCodes ∧ cs = [sirIDList]) ∨
      (code ∈ terminalCodes ∧ cs = []) := by
  intro events
  induction events with
  | nil =>
    intro waiting code msg cs h
    cases waiting <;> simp [waitLoop] at h
  | cons ev rest ih =>
    intro waiting code msg cs h
    cases waiting with
    | zero => simp [waitLoop] at h
    | succ n =>
      cases ev with
      | interrupt => simp [waitLoop] at h
      | snap s =>
        rcases hps : processSnapshot false sirIDList s with w | ⟨c, cd, m⟩ | ⟨cd, m⟩ | c
        · simp only [waitLoop, hps] at h
          exact ih _ _ _ _ h
        · simp only [waitLoop, hps, Prod.mk.injEq,
            WaitResult.provisioningFailed.injEq] at h
          obtain ⟨⟨h1, h2⟩, h3⟩ := h
          obtain ⟨hc, hcode⟩ := examineRequests_cancelled false sirIDList s _ _ _ _ hps
          subst h1; subst h2; subst h3; subst hc
          exact Or.inl ⟨hcode, rfl⟩
        · simp only [waitLoop, hps, Prod.mk.injEq,
            WaitResult.provisioningFailed.injEq] at h
          obtain ⟨⟨h1, h2⟩, h3⟩ := h
          have hcode := examineRequests_terminal false sirIDList s _ _ _ hps
          subst h1; subst h2; subst h3
          exact Or.inr ⟨hcode, rfl⟩
        · simp [waitLoop, hps] at h

/-! ## Claims about the poller failure branches -/

/-- Claim C1: if during some polling cycle a snapshot shows one tracked
request with a practically-terminal status code (and no tracked request with
a terminal code) before all others are observed fulfilled, the fulfillment
poller issues exactly one cancellation covering all tracked identifiers and
then raises `EnvironmentError` carrying that status code and its message. -/
theorem claim_C1 (sirIDList : List String) (s : List SpotRequestEntry)
    (e : SpotRequestEntry) (he : e ∈ s)
    (ht : e.spotInstanceRequestId ∈ sirIDList)
    (hp : e.statusCode ∈ practicallyTerminalCodes)
    (honly : ∀ e2 ∈ s, e2.spotInstanceRequestId ∈ sirIDList →
      e2.statusCode ∈ practicallyTerminalCodes ∨ e2.statusCode ∈ terminalCodes → e2 = e) :
    ∀ (waiting : Nat) (rest : List Event), waiting ≠ 0 →
      waitLoop false sirIDList waiting (Event.snap s :: rest) =
        (WaitResult.provisioningFailed e.statusCode e.statusMessage, [sirIDList]) := by
  intro waiting rest hw
  obtain ⟨n, rfl⟩ : ∃ n, waiting = n + 1 := ⟨waiting - 1, by omega⟩
  have hex := examineRequests_first_practical false sirIDList e ht hp s he honly sirIDList.length
  simp only [Bool.false_eq_true, if_neg, if_false] at hex
  have hps : processSnapshot false sirIDList s =
      CycleOutcome.cancelledAndRaised sirIDList e.statusCode e.statusMessage := hex
  simp only [waitLoop, hps]

/-- Witness for C1 at a concrete batch of two identifiers where `sir-2`
reports `capacity-not-available` while `sir-1` is still pending. -/
theorem claim_C1_witness :
    waitLoop false ["sir-1", "sir-2"] 2
        [Event.snap [⟨"sir-1", "pending-evaluation", "pend"⟩,
                     ⟨"sir-2", "capacity-not-available", "no capacity"⟩]] =
      (WaitResult.provisioningFailed "capacity-not-available" "no capacity",
        [["sir-1", "sir-2"]]) :=
  claim_C1 ["sir-1", "sir-2"]
    [⟨"sir-1", "pending-evaluation", "pend"⟩, ⟨"sir-2", "capacity-not-available", "no capacity"⟩]
    ⟨"sir-2", "capacity-not-available", "no capacity"⟩
    (by simp) (by simp) (by simp [practicallyTerminalCodes])
    (by intro e2 h2 htr hfail
        rcases List.mem_cons.mp h2 with h | h
        · subst h; simp [practicallyTerminalCodes, terminalCodes] at hfail
        · simp at h; exact h)
    2 [] (by omega)

/-- Claim C2 counterexample: with one tracked request reporting the terminal
code `bad-parameters`, the invocation fails with `EnvironmentError` carrying
that code while the list of issued cancellations is empty, so the failure
surfaces without any cancellation covering the batch. -/
theorem claim_C2_counterexample :
    launch_EC2_spot_instances (Except.ok ())
        { submitOutcome := Except.ok ["sir-1"],
          waitEvents := [Event.snap [⟨"sir-1", "bad-parameters", "bad"⟩]],
          cancelFails := false,
          describeOutcome := Except.ok [],
          initOutcome := Except.ok () } false =
      (LaunchOutcome.raises (Err.environmentError ["bad-parameters", "bad"]),
        { tempExists := false, cancels := [], resolvedCalled := false,
          initWaitCalled := false }) := by
  rfl

/-- Claim C2 (amended): when the invocation fails with `EnvironmentError`
from the fulfillment wait, a cancellation covering every tracked identifier
has been issued exactly when the offending code is practically terminal; a
genuinely terminal code propagates with no cancellation issued at all. -/
theorem claim_C2_amended (sirIDList : List String) (events : List Event)
    (code msg : String) (cs : List (List String))
    (h : wait_for_launch_requests_to_fulfill false sirIDList events =
      (.provisioningFailed code msg, cs)) :
    (code ∈ practicallyTerminalCodes ∧ cs = [sirIDList]) ∨
    (code ∈ terminalCodes ∧ cs = []) :=
  waitLoop_provisioningFailed sirIDList events sirIDList.length code msg cs h

/-- Witness for the amended C2 at a concrete practically-terminal failure. -/
theorem claim_C2_amended_witness :
    ("capacity-not-available" ∈ practicallyTerminalCodes ∧
        [["sir-1"]] = [["sir-1"]]) ∨
    ("capacity-not-available" ∈ terminalCodes ∧ [["sir-1"]] = ([] : List (List String))) :=
  claim_C2_amended ["sir-1"]
    [Event.snap [⟨"sir-1", "capacity-not-available", "full"⟩]]
    "capacity-not-available" "full" [["sir-1"]] (by rfl)

/-- Claim C7 counterexample: the cancellation operation is a bare
`subprocess.check_output` call, so when the provider cancel call fails
during handling of a practically-terminal status, it raises and the
resulting `CalledProcessError` replaces the `EnvironmentError`; the very
same snapshot with a succeeding cancel call yields the provisioning
failure instead. -/
theorem claim_C7_counterexample :
    wait_for_launch_requests_to_fulfill true ["sir-1"]
        [Event.snap [⟨"sir-1", "capacity-not-available", "no capacity"⟩]] =
      (WaitResult.transportError, [["sir-1"]]) ∧
    wait_for_launch_requests_to_fulfill false ["sir-1"]
        [Event.snap [⟨"sir-1", "capacity-not-available", "no capacity"⟩]] =
      (WaitResult.provisioningFailed "capacity-not-available" "no capacity", [["sir-1"]]) :=
  ⟨rfl, rfl⟩

/-- Claim C7 (amended): the cancellation call can raise; if the provider
cancel call fails while handling a practically-terminal status, the
transport error propagates instead of the original provisioning failure,
masking the triggering status code. -/
theorem claim_C7_amended (sirIDList : List String) (s : List SpotRequestEntry)
    (e : SpotRequestEntry) (he : e ∈ s)
    (ht : e.spotInstanceRequestId ∈ sirIDList)
    (hp : e.statusCode ∈ practicallyTerminalCodes)
    (honly : ∀ e2 ∈ s, e2.spotInstanceRequestId ∈ sirIDList →
      e2.statusCode ∈ practicallyTerminalCodes ∨ e2.statusCode ∈ terminalCodes → e2 = e) :
    ∀ (waiting : Nat) (rest : List Event), waiting ≠ 0 →
      waitLoop true sirIDList waiting (Event.snap s :: rest) =
        (WaitResult.transportError, [sirIDList]) := by
  intro waiting rest hw
  obtain ⟨n, rfl⟩ : ∃ n, waiting = n + 1 := ⟨waiting - 1, by omega⟩
  have hex := examineRequests_first_practical true sirIDList e ht hp s he honly sirIDList.length
  simp only [if_pos] at hex
  have hps : processSnapshot true sirIDList s = CycleOutcome.cancelCallRaised sirIDList := hex
  simp only [waitLoop, hps]

/-- Witness for the amended C7 at a concrete failing cancel call. -/
theorem claim_C7_amended_witness :
    waitLoop true ["sir-9"] 1
        [Event.snap [⟨"sir-9", "az-group-constraint", "az gone"⟩]] =
      (WaitResult.transportError, [["sir-9"]]) :=
  claim_C7_amended ["sir-9"] [⟨"sir-9", "az-group-constraint", "az gone"⟩]
    ⟨"sir-9", "az-group-constraint", "az gone"⟩
    (by simp) (by simp) (by simp [practicallyTerminalCodes])
    (by intro e2 h2 htr hfail
        simp at h2; exact h2)
    1 [] (by omega)

/-! ## Claim about region derivation -/

/-- Claim C5: if the placement / availability-zone field is absent or empty,
no region override is produced; if the zone string ends in a digit, the
derived region is the full zone string and the placement field is removed
from the provider payload; otherwise the derived region is the zone string
minus its last character and the placement field is retained unchanged. -/
theorem claim_C5 (ls : LaunchSpec) (c m : String)
    (hc : ls.instanceCount = some c) (hm : ls.maxSpotPrice = some m) :
    (ls.placement = none →
      process_launch_spec ls = .ok ⟨c, m, "", none⟩) ∧
    (∀ p : Placement, ls.placement = some p → p.availabilityZone = "" →
      process_launch_spec ls = .ok ⟨c, m, "", some p⟩) ∧
    (∀ p : Placement, ls.placement = some p → p.availabilityZone ≠ "" →
      lastCharIsDigit p.availabilityZone = true →
      process_launch_spec ls =
        .ok ⟨c, m, " --region " ++ p.availabilityZone ++ " ", none⟩) ∧
    (∀ p : Placement, ls.placement = some p → p.availabilityZone ≠ "" →
      lastCharIsDigit p.availabilityZone = false →
      process_launch_spec ls =
        .ok ⟨c, m, " --region " ++ dropLastChar p.availabilityZone ++ " ", some p⟩) := by
  refine ⟨?_, ?_, ?_, ?_⟩
  · intro hpl
    simp [process_launch_spec, hc, hm, regionSwitchAndPlacement, hpl]
  · intro p hpl hz
    simp [process_launch_spec, hc, hm, regionSwitchAndPlacement, hpl, hz]
  · intro p hpl hz hd
    simp [process_launch_spec, hc, hm, regionSwitchAndPlacement, hpl, hz, hd]
  · intro p hpl hz hd
    simp [process_launch_spec, hc, hm, regionSwitchAndPlacement, hpl, hz, hd]

/-- Witness for C5 on the two zone shapes from the spec,
`"us-east-1"` (bare region) and `"us-east-1c"` (proper zone). -/
theorem claim_C5_witness :
    process_launch_spec ⟨some "2", some "0.08", some ⟨"us-east-1"⟩⟩ =
      .ok ⟨"2", "0.08", " --region us-east-1 ", none⟩ ∧
    process_launch_spec ⟨some "2", some "0.08", some ⟨"us-east-1c"⟩⟩ =
      .ok ⟨"2", "0.08", " --region us-east-1 ", some ⟨"us-east-1c"⟩⟩ := by
  constructor
  · have h := (claim_C5 ⟨some "2", some "0.08", some ⟨"us-east-1"⟩⟩ "2" "0.08" rfl rfl).2.2.1
      ⟨"us-east-1"⟩ rfl (by decide) (by decide)
    exact h
  · have h := (claim_C5 ⟨some "2", some "0.08", some ⟨"us-east-1c"⟩⟩ "2" "0.08" rfl rfl).2.2.2
      ⟨"us-east-1c"⟩ rfl (by decide) (by decide)
    exact h

/-! ## Fulfillment counting lemmas -/

/-- If no tracked entry of the snapshot carries a failing code, the
examination loop falls off the `for` with the count decremented once per
tracked fulfilled entry. -/
theorem examineRequests_next_of_clean (cancelFails : Bool) (sirIDList : List String) :
    ∀ s : List SpotRequestEntry,
      (∀ e ∈ s, e.spotInstanceRequestId ∈ sirIDList →
        e.statusCode ∉ practicallyTerminalCodes ∧ e.statusCode ∉ terminalCodes) →
      ∀ waiting : Nat, examineRequests cancelFails sirIDList s waiting =
        .next (waiting - (s.filter (isTrackedFulfilled sirIDList)).length) := by
  intro s
  induction s with
  | nil => intro hclean waiting; simp [examineRequests]
  | cons h0 rest ih =>
    intro hclean waiting
    have hcleanrest := fun e he2 => hclean e (List.mem_cons_of_mem _ he2)
    by_cases htr : h0.spotInstanceRequestId ∈ sirIDList
    · by_cases hf : h0.statusCode = "fulfilled"
      · have hkeep : isTrackedFulfilled sirIDList h0 = true := by
          simp [isTrackedFulfilled, htr, hf]
        simp only [examineRequests, if_pos htr, if_pos hf, List.filter_cons, hkeep,
          if_true, List.length_cons]
        rw [ih hcleanrest (waiting - 1)]
        congr 1
        omega
      · obtain ⟨hpr, hterm⟩ := hclean h0 (List.mem_cons_self _ _) htr
        have hdrop : isTrackedFulfilled sirIDList h0 = false := by
          simp [isTrackedFulfilled, hf]
        simp only [examineRequests, if_pos htr, if_neg hf, if_neg hpr, if_neg hterm,
          List.filter_cons, hdrop, if_false, Bool.false_eq_true]
        exact ih hcleanrest waiting
    · have hdrop : isTrackedFulfilled sirIDList h0 = false := by
        simp [isTrackedFulfilled, htr]
      simp only [examineRequests, if_neg htr, List.filter_cons, hdrop, if_false,
        Bool.false_eq_true]
      exact ih hcleanrest waiting

/-- Conversely, a `next` outcome means no tracked entry carried a failing
code, and pins the returned count. -/
theorem examineRequests_next_clean (cancelFails : Bool) (sirIDList : List String) :
    ∀ (s : List SpotRequestEntry) (waiting wn : Nat),
      examineRequests cancelFails sirIDList s waiting = .next wn →
      (∀ e ∈ s, e.spotInstanceRequestId ∈ sirIDList →
        e.statusCode ∉ practicallyTerminalCodes ∧ e.statusCode ∉ terminalCodes) ∧
      wn = waiting - (s.filter (isTrackedFulfilled sirIDList)).length := by
  intro s
  induction s with
  | nil =>
    intro waiting wn h
    simp only [examineRequests, CycleOutcome.next.injEq] at h
    exact ⟨by simp, by simp [h.symm]⟩
  | cons h0 rest ih =>
    intro waiting wn h
    by_cases htr : h0.spotInstanceRequestId ∈ sirIDList
    · by_cases hf : h0.statusCode = "fulfilled"
      · simp only [examineRequests, if_pos htr, if_pos hf] at h
        obtain ⟨hclean, hwn⟩ := ih _ _ h
        have hkeep : isTrackedFulfilled sirIDList h0 = true := by
          simp [isTrackedFulfilled, htr, hf]
        refine ⟨?_, ?_⟩
        · intro e he2 hemem
          rcases List.mem_cons.mp he2 with rfl | he3
          · rw [hf]
            constructor <;> decide
          · exact hclean e he3 hemem
        · simp only [List.filter_cons, hkeep, if_true, List.length_cons]
          omega
      · by_cases hpr : h0.statusCode ∈ practicallyTerminalCodes
        · simp only [examineRequests, if_pos htr, if_neg hf, if_pos hpr] at h
          cases cancelFails <;> simp_all
        · by_cases hterm : h0.statusCode ∈ terminalCodes
          · simp [examineRequests, if_pos htr, if_neg hf, if_neg hpr, if_pos hterm] at h
          · simp only [examineRequests, if_pos htr, if_neg hf, if_neg hpr, if_neg hterm] at h
            obtain ⟨hclean, hwn⟩ := ih _ _ h
            have hdrop : isTrackedFulfilled sirIDList h0 = false := by
              simp [isTrackedFulfilled, hf]
            refine ⟨?_, ?_⟩
            · intro e he2 hemem
              rcases List.mem_cons.mp he2 with rfl | he3
              · exact ⟨hpr, hterm⟩
              · exact hclean e he3 hemem
            · simp only [List.filter_cons, hdrop, if_false, Bool.false_eq_true]
              exact hwn
    · simp only [examineRequests, if_neg htr] at h
      obtain ⟨hclean, hwn⟩ := ih _ _ h
      have hdrop : isTrackedFulfilled sirIDList h0 = false := by
        simp [isTrackedFulfilled, htr]
      refine ⟨?_, ?_⟩
      · intro e he2 hemem
        rcases List.mem_cons.mp he2 with rfl | he3
        · exact absurd hemem htr
        · exact hclean e he3 hemem
      · simp only [List.filter_cons, hdrop, if_false, Bool.false_eq_true]
        exact hwn

/-- The identifiers of the tracked fulfilled entries of a duplicate-free
snapshot form a duplicate-free sublist of the tracked batch. -/
theorem trackedFulfilled_ids (sirIDList : List String) (s : List SpotRequestEntry)
    (hnd : (s.map SpotRequestEntry.spotInstanceRequestId).Nodup) :
    ((s.filter (isTrackedFulfilled sirIDList)).map
      SpotRequestEntry.spotInstanceRequestId).Nodup ∧
    ∀ x ∈ (s.filter (isTrackedFulfilled sirIDList)).map
      SpotRequestEntry.spotInstanceRequestId, x ∈ sirIDList := by
  constructor
  · exact List.Nodup.sublist ((List.filter_sublist s).map _) hnd
  · intro x hx
    simp only [List.mem_map] at hx
    obtain ⟨e, he, rfl⟩ := hx
    have hprop := List.of_mem_filter he
    simp only [isTrackedFulfilled, Bool.and_eq_true, decide_eq_true_eq] at hprop
    exact hprop.1

/-- When at least `|sirIDList|` tracked fulfilled entries appear in a
duplicate-free snapshot, every tracked identifier is fulfilled in it. -/
theorem all_fulfilled_of_count_ge (sirIDList : List String) (s : List SpotRequestEntry)
    (hnd : (s.map SpotRequestEntry.spotInstanceRequestId).Nodup)
    (hcount : sirIDList.length ≤ (s.filter (isTrackedFulfilled sirIDList)).length) :
    ∀ id ∈ sirIDList, fulfilledIn s id := by
  intro id hid
  obtain ⟨hfnd, hsub⟩ := trackedFulfilled_ids sirIDList s hnd
  have hsubF : ((s.filter (isTrackedFulfilled sirIDList)).map
      SpotRequestEntry.spotInstanceRequestId).toFinset ⊆ sirIDList.toFinset := by
    intro x hx
    rw [List.mem_toFinset] at hx ⊢
    exact hsub x hx
  have hcard1 := List.toFinset_card_of_nodup hfnd
  have hcard2 := List.toFinset_card_le sirIDList
  have hlen := List.length_map (s.filter (isTrackedFulfilled sirIDList))
    SpotRequestEntry.spotInstanceRequestId
  have heq : ((s.filter (isTrackedFulfilled sirIDList)).map
      SpotRequestEntry.spotInstanceRequestId).toFinset = sirIDList.toFinset := by
    apply Finset.eq_of_subset_of_card_le hsubF
    omega
  have hidf : id ∈ (s.filter (isTrackedFulfilled sirIDList)).map
      SpotRequestEntry.spotInstanceRequestId := by
    have hmem : id ∈ sirIDList.toFinset := List.mem_toFinset.mpr hid
    rw [← heq, List.mem_toFinset] at hmem
    exact hmem
  obtain ⟨e, heF, hide⟩ := List.mem_map.mp hidf
  have hprop := List.of_mem_filter heF
  simp only [isTrackedFulfilled, Bool.and_eq_true, decide_eq_true_eq] at hprop
  exact ⟨e, List.mem_of_mem_filter heF, hide, hprop.2⟩

/-- If some tracked identifier is not fulfilled in a duplicate-free
snapshot, the count of tracked fulfilled entries stays below the batch
size. -/
theorem count_lt_of_missing (sirIDList : List String) (s : List SpotRequestEntry)
    (id0 : String) (hnd : (s.map SpotRequestEntry.spotInstanceRequestId).Nodup)
    (hid0 : id0 ∈ sirIDList) (hnf : ¬ fulfilledIn s id0) :
    (s.filter (isTrackedFulfilled sirIDList)).length < sirIDList.length := by
  obtain ⟨hfnd, hsub⟩ := trackedFulfilled_ids sirIDList s hnd
  have hsubE : ((s.filter (isTrackedFulfilled sirIDList)).map
      SpotRequestEntry.spotInstanceRequestId).toFinset ⊆ sirIDList.toFinset.erase id0 := by
    intro x hx
    rw [List.mem_toFinset] at hx
    obtain ⟨e, heF, rfl⟩ := List.mem_map.mp hx
    have hprop := List.of_mem_filter heF
    simp only [isTrackedFulfilled, Bool.and_eq_true, decide_eq_true_eq] at hprop
    have hne : e.spotInstanceRequestId ≠ id0 := by
      intro hEq
      exact hnf ⟨e, List.mem_of_mem_filter heF, hEq, hprop.2⟩
    exact Finset.mem_erase.mpr ⟨hne, List.mem_toFinset.mpr hprop.1⟩
  have h1 := Finset.card_le_card hsubE
  have h2 := Finset.card_erase_of_mem (List.mem_toFinset.mpr hid0)
  have h3 : 0 < sirIDList.toFinset.card :=
    Finset.card_pos.mpr ⟨id0, List.mem_toFinset.mpr hid0⟩
  have h4 := List.toFinset_card_le sirIDList
  have h5 := List.toFinset_card_of_nodup hfnd
  have h6 := List.length_map (s.filter (isTrackedFulfilled sirIDList))
    SpotRequestEntry.spotInstanceRequestId
  omega

/-- A `fulfilled` exit of the wait loop with a nonzero initial count must
pass through a snapshot whose examination drove the count to zero. -/
theorem waitLoop_fulfilled_snapshot (sirIDList : List String) :
    ∀ (events : List Event) (waiting : Nat) (cs : List (List String)),
      waiting ≠ 0 →
      waitLoop false sirIDList waiting events = (.fulfilled, cs) →
      ∃ s, Event.snap s ∈ events ∧ processSnapshot false sirIDList s = .next 0 := by
  intro events
  induction events with
  | nil =>
    intro waiting cs hw h
    obtain ⟨n, rfl⟩ : ∃ n, waiting = n + 1 := ⟨waiting - 1, by omega⟩
    simp [waitLoop] at h
  | cons ev rest ih =>
    intro waiting cs hw h
    obtain ⟨n, rfl⟩ : ∃ n, waiting = n + 1 := ⟨waiting - 1, by omega⟩
    cases ev with
    | interrupt => simp [waitLoop] at h
    | snap s =>
      rcases hps : processSnapshot false sirIDList s with w | ⟨c, cd, m⟩ | ⟨cd, m⟩ | c
      · by_cases hw0 : w = 0
        · exact ⟨s, List.mem_cons_self _ _, by rw [hps, hw0]⟩
        · simp only [waitLoop, hps] at h
          obtain ⟨s2, hs2, hpr⟩ := ih w cs hw0 h
          exact ⟨s2, List.mem_cons_of_mem _ hs2, hpr⟩
      · simp [waitLoop, hps] at h
      · simp [waitLoop, hps] at h
      · simp [waitLoop, hps] at h

/-- Claim C3: the fulfillment poller returns successfully only after a
single snapshot reports every tracked identifier fulfilled; and a snapshot
with some tracked identifier not yet fulfilled (and no failing tracked
codes) leaves a nonzero waiting count and causes another polling cycle
rather than a return. -/
theorem claim_C3 :
    (∀ (sirIDList : List String) (events : List Event) (cs : List (List String)),
      (∀ s, Event.snap s ∈ events →
        (s.map SpotRequestEntry.spotInstanceRequestId).Nodup) →
      sirIDList ≠ [] →
      wait_for_launch_requests_to_fulfill false sirIDList events = (.fulfilled, cs) →
      ∃ s, Event.snap s ∈ events ∧ ∀ id ∈ sirIDList, fulfilledIn s id) ∧
    (∀ (sirIDList : List String) (s : List SpotRequestEntry) (id0 : String),
      (s.map SpotRequestEntry.spotInstanceRequestId).Nodup →
      id0 ∈ sirIDList → ¬ fulfilledIn s id0 →
      (∀ e ∈ s, e.spotInstanceRequestId ∈ sirIDList →
        e.statusCode ∉ practicallyTerminalCodes ∧ e.statusCode ∉ terminalCodes) →
      ∃ wn, processSnapshot false sirIDList s = .next wn ∧ wn ≠ 0 ∧
        ∀ (waiting : Nat) (rest : List Event), waiting ≠ 0 →
          waitLoop false sirIDList waiting (Event.snap s :: rest) =
            waitLoop false sirIDList wn rest) := by
  constructor
  · intro sirIDList events cs hsnod hne h
    have hw : sirIDList.length ≠ 0 := by
      intro h0
      exact hne (List.length_eq_zero.mp h0)
    obtain ⟨s, hmem, hnext⟩ := waitLoop_fulfilled_snapshot sirIDList events _ cs hw h
    refine ⟨s, hmem, ?_⟩
    obtain ⟨hclean, hwn⟩ := examineRequests_next_clean false sirIDList s _ 0 hnext
    exact all_fulfilled_of_count_ge sirIDList s (hsnod s hmem) (by omega)
  · intro sirIDList s id0 hsnod hid0 hnf hclean
    have hcount := count_lt_of_missing sirIDList s id0 hsnod hid0 hnf
    have hps : processSnapshot false sirIDList s =
        .next (sirIDList.length - (s.filter (isTrackedFulfilled sirIDList)).length) :=
      examineRequests_next_of_clean false sirIDList s hclean sirIDList.length
    refine ⟨_, hps, by omega, ?_⟩
    intro waiting rest hw
    obtain ⟨n, rfl⟩ : ∃ n, waiting = n + 1 := ⟨waiting - 1, by omega⟩
    simp only [waitLoop, hps]

/-- Witness for C3: a batch of two identifiers, a first snapshot with one
fulfilled and one pending (poll again), and a second snapshot with both
fulfilled (return). -/
theorem claim_C3_witness :
    (∃ s, Event.snap s ∈
        [Event.snap [⟨"sir-1", "fulfilled", "ok"⟩, ⟨"sir-2", "pending-evaluation", "p"⟩],
         Event.snap [⟨"sir-1", "fulfilled", "ok"⟩, ⟨"sir-2", "fulfilled", "ok"⟩]] ∧
      ∀ id ∈ ["sir-1", "sir-2"], fulfilledIn s id) ∧
    (∃ wn, processSnapshot false ["sir-1", "sir-2"]
        [⟨"sir-1", "fulfilled", "ok"⟩, ⟨"sir-2", "pending-evaluation", "p"⟩] = .next wn ∧
      wn ≠ 0 ∧
      ∀ (waiting : Nat) (rest : List Event), waiting ≠ 0 →
        waitLoop false ["sir-1", "sir-2"] waiting
            (Event.snap [⟨"sir-1", "fulfilled", "ok"⟩,
              ⟨"sir-2", "pending-evaluation", "p"⟩] :: rest) =
          waitLoop false ["sir-1", "sir-2"] wn rest) := by
  constructor
  · refine claim_C3.1 ["sir-1", "sir-2"]
      [Event.snap [⟨"sir-1", "fulfilled", "ok"⟩, ⟨"sir-2", "pending-evaluation", "p"⟩],
       Event.snap [⟨"sir-1", "fulfilled", "ok"⟩, ⟨"sir-2", "fulfilled", "ok"⟩]]
      [] ?_ (by simp) (by rfl)
    intro s hs
    simp only [List.mem_cons, List.not_mem_nil, or_false] at hs
    rcases hs with hs | hs <;> (cases Event.snap.inj hs; decide)
  · exact claim_C3.2 ["sir-1", "sir-2"]
      [⟨"sir-1", "fulfilled", "ok"⟩, ⟨"sir-2", "pending-evaluation", "p"⟩]
      "sir-2" (by decide) (by simp) (by decide) (by decide)

/-! ## Claim C10: untracked snapshot entries are ignored -/

/-- The examination loop only looks at tracked entries: filtering the
snapshot down to tracked identifiers does not change its outcome. -/
theorem examineRequests_untracked_invariant (cancelFails : Bool) (sirIDList : List String) :
    ∀ (s : List SpotRequestEntry) (waiting : Nat),
      examineRequests cancelFails sirIDList s waiting =
        examineRequests cancelFails sirIDList
          (s.filter (fun e => decide (e.spotInstanceRequestId ∈ sirIDList))) waiting := by
  intro s
  induction s with
  | nil => intro waiting; rfl
  | cons h0 rest ih =>
    intro waiting
    by_cases htr : h0.spotInstanceRequestId ∈ sirIDList
    · have hkeep : (h0 :: rest).filter
          (fun e => decide (e.spotInstanceRequestId ∈ sirIDList)) =
          h0 :: rest.filter (fun e => decide (e.spotInstanceRequestId ∈ sirIDList)) := by
        simp [List.filter_cons, htr]
      rw [hkeep]
      by_cases hf : h0.statusCode = "fulfilled"
      · simp only [examineRequests, if_pos htr, if_pos hf]
        exact ih _
      · by_cases hpr : h0.statusCode ∈ practicallyTerminalCodes
        · simp only [examineRequests, if_pos htr, if_neg hf, if_pos hpr]
        · by_cases hterm : h0.statusCode ∈ terminalCodes
          · simp only [examineRequests, if_pos htr, if_neg hf, if_neg hpr, if_pos hterm]
          · simp only [examineRequests, if_pos htr, if_neg hf, if_neg hpr, if_neg hterm]
            exact ih _
    · have hdrop : (h0 :: rest).filter
          (fun e => decide (e.spotInstanceRequestId ∈ sirIDList)) =
          rest.filter (fun e => decide (e.spotInstanceRequestId ∈ sirIDList)) := by
        simp [List.filter_cons, htr]
      rw [hdrop]
      simp only [examineRequests, if_neg htr]
      exact ih _

/-- Claim C10: two snapshots that agree on their tracked entries (and
differ arbitrarily on untracked entries, including untracked terminal or
practically-terminal codes) produce the same polling-cycle outcome: same
fulfilled count, same cancellation behaviour, same raised error or
continuation of the loop. -/
theorem claim_C10 (cancelFails : Bool) (sirIDList : List String)
    (s1 s2 : List SpotRequestEntry)
    (hagree : s1.filter (fun e => decide (e.spotInstanceRequestId ∈ sirIDList)) =
      s2.filter (fun e => decide (e.spotInstanceRequestId ∈ sirIDList))) :
    processSnapshot cancelFails sirIDList s1 = processSnapshot cancelFails sirIDList s2 ∧
    ∀ (waiting : Nat) (rest : List Event),
      waitLoop cancelFails sirIDList waiting (Event.snap s1 :: rest) =
        waitLoop cancelFails sirIDList waiting (Event.snap s2 :: rest) := by
  have hps : processSnapshot cancelFails sirIDList s1 =
      processSnapshot cancelFails sirIDList s2 := by
    unfold processSnapshot
    rw [examineRequests_untracked_invariant, hagree,
      ← examineRequests_untracked_invariant]
  refine ⟨hps, ?_⟩
  intro waiting rest
  cases waiting with
  | zero => rfl
  | succ n => simp only [waitLoop, hps]

/-- Witness for C10: the second snapshot adds untracked entries carrying a
terminal and a practically-terminal code; the decision is unchanged. -/
theorem claim_C10_witness :
    processSnapshot false ["sir-1"] [⟨"sir-1", "pending-evaluation", "p"⟩] =
      processSnapshot false ["sir-1"]
        [⟨"other-1", "bad-parameters", "x"⟩, ⟨"sir-1", "pending-evaluation", "p"⟩,
         ⟨"other-2", "capacity-not-available", "y"⟩] ∧
    ∀ (waiting : Nat) (rest : List Event),
      waitLoop false ["sir-1"] waiting
          (Event.snap [⟨"sir-1", "pending-evaluation", "p"⟩] :: rest) =
        waitLoop false ["sir-1"] waiting
          (Event.snap [⟨"other-1", "bad-parameters", "x"⟩,
            ⟨"sir-1", "pending-evaluation", "p"⟩,
            ⟨"other-2", "capacity-not-available", "y"⟩] :: rest) :=
  claim_C10 false ["sir-1"] [⟨"sir-1", "pending-evaluation", "p"⟩]
    [⟨"other-1", "bad-parameters", "x"⟩, ⟨"sir-1", "pending-evaluation", "p"⟩,
     ⟨"other-2", "capacity-not-available", "y"⟩] (by decide)

/-! ## Claim C4: interrupt during the fulfillment wait -/

/-- An interrupt exit of the wait loop has issued no cancel call inside the
loop (the cancel in response to the interrupt happens in the caller). -/
theorem waitLoop_interrupt_cancels (cancelFails : Bool) (sirIDList : List String) :
    ∀ (events : List Event) (waiting : Nat),
      (waitLoop cancelFails sirIDList waiting events).1 = .keyboardInterrupt →
      (waitLoop cancelFails sirIDList waiting events).2 = [] := by
  intro events
  induction events with
  | nil => intro waiting _; cases waiting <;> rfl
  | cons ev rest ih =>
    intro waiting h
    cases waiting with
    | zero => rfl
    | succ n =>
      cases ev with
      | interrupt => rfl
      | snap s =>
        rcases hps : processSnapshot cancelFails sirIDList s with w | ⟨c, cd, m⟩ | ⟨cd, m⟩ | c
        · simp only [waitLoop, hps] at h ⊢
          exact ih w h
        · simp [waitLoop, hps] at h
        · simp [waitLoop, hps] at h
        · simp [waitLoop, hps] at h

/-- Claim C4: if an external interruption arrives at a suspension point of
the fulfillment wait, a cancellation covering all request identifiers
submitted in this run is issued and the `KeyboardInterrupt` is then
re-raised, with no instance resolution and no initialization-wait step
attempted afterwards. -/
theorem claim_C4 (w : AwsWorld) (waitInitFlag : Bool) (sirIDList : List String)
    (hsubmit : w.submitOutcome = Except.ok sirIDList)
    (hcancel : w.cancelFails = false)
    (hint : (wait_for_launch_requests_to_fulfill false sirIDList w.waitEvents).1 =
      WaitResult.keyboardInterrupt) :
    (launch_EC2_spot_instances (Except.ok ()) w waitInitFlag).1 =
      LaunchOutcome.raises Err.keyboardInterrupt ∧
    (launch_EC2_spot_instances (Except.ok ()) w waitInitFlag).2.cancels = [sirIDList] ∧
    (launch_EC2_spot_instances (Except.ok ()) w waitInitFlag).2.resolvedCalled = false ∧
    (launch_EC2_spot_instances (Except.ok ()) w waitInitFlag).2.initWaitCalled = false := by
  have hint2 : (waitLoop false sirIDList sirIDList.length w.waitEvents).1 =
      WaitResult.keyboardInterrupt := hint
  have hcs := waitLoop_interrupt_cancels false sirIDList w.waitEvents sirIDList.length hint2
  have hpair : wait_for_launch_requests_to_fulfill false sirIDList w.waitEvents =
      (WaitResult.keyboardInterrupt, []) := by
    rw [Prod.ext_iff]
    exact ⟨hint, hcs⟩
  simp only [launch_EC2_spot_instances, hsubmit, hcancel, hpair]
  simp [initialRunState]

/-- Witness for C4: interrupt during the first polling cycle of a
one-request batch. -/
theorem claim_C4_witness :
    (launch_EC2_spot_instances (Except.ok ())
        { submitOutcome := Except.ok ["sir-1"], waitEvents := [Event.interrupt],
          cancelFails := false, describeOutcome := Except.ok [],
          initOutcome := Except.ok () } false).1 =
      LaunchOutcome.raises Err.keyboardInterrupt ∧
    (launch_EC2_spot_instances (Except.ok ())
        { submitOutcome := Except.ok ["sir-1"], waitEvents := [Event.interrupt],
          cancelFails := false, describeOutcome := Except.ok [],
          initOutcome := Except.ok () } false).2.cancels = [["sir-1"]] ∧
    (launch_EC2_spot_instances (Except.ok ())
        { submitOutcome := Except.ok ["sir-1"], waitEvents := [Event.interrupt],
          cancelFails := false, describeOutcome := Except.ok [],
          initOutcome := Except.ok () } false).2.resolvedCalled = false ∧
    (launch_EC2_spot_instances (Except.ok ())
        { submitOutcome := Except.ok ["sir-1"], waitEvents := [Event.interrupt],
          cancelFails := false, describeOutcome := Except.ok [],
          initOutcome := Except.ok () } false).2.initWaitCalled = false :=
  claim_C4 _ false ["sir-1"] rfl rfl rfl

/-! ## Claim C6: staged payload artifact lifetime -/

/-- Claim C6: for every exit path of one invocation (success, validation
error, provisioning failure, interrupt, transport error — and even the
diverging wait), the staged payload artifact `amils_temp.json` is absent
from disk after the `__main__` driver finishes: it is removed right after a
successful submit, and every exception handler of the driver performs a
guarded removal before exiting. -/
theorem claim_C6 (specOutcome : Except Err Unit) (w : AwsWorld) (waitInitFlag : Bool) :
    (main_invocation specOutcome w waitInitFlag).2.tempExists = false := by
  cases specOutcome with
  | error e => rfl
  | ok u =>
    cases hs : w.submitOutcome with
    | error e => simp [main_invocation, launch_EC2_spot_instances, hs]
    | ok sirIDList =>
      rcases hw : wait_for_launch_requests_to_fulfill w.cancelFails sirIDList w.waitEvents
        with ⟨res, cs⟩
      cases res with
      | fulfilled =>
        cases hd : w.describeOutcome with
        | error e => simp [main_invocation, launch_EC2_spot_instances, hs, hw, hd]
        | ok instancesData =>
          cases hr : resolveLoop sirIDList instancesData with
          | error msg =>
            simp [main_invocation, launch_EC2_spot_instances, hs, hw, hd, hr]
          | ok l =>
            cases waitInitFlag with
            | false =>
              simp [main_invocation, launch_EC2_spot_instances, hs, hw, hd, hr]
            | true =>
              cases hi : w.initOutcome with
              | error e =>
                simp [main_invocation, launch_EC2_spot_instances, hs, hw, hd, hr, hi]
              | ok u2 =>
                simp [main_invocation, launch_EC2_spot_instances, hs, hw, hd, hr, hi]
      | provisioningFailed code msg =>
        simp [main_invocation, launch_EC2_spot_instances, hs, hw]
      | keyboardInterrupt =>
        cases hc : w.cancelFails with
        | false =>
          rw [hc] at hw
          simp [main_invocation, launch_EC2_spot_instances, hs, hc, hw]
        | true =>
          rw [hc] at hw
          simp [main_invocation, launch_EC2_spot_instances, hs, hc, hw]
      | transportError => simp [main_invocation, launch_EC2_spot_instances, hs, hw]
      | exhausted => simp [main_invocation, launch_EC2_spot_instances, hs, hw]

/-! ## Claims C8 and C9: instance resolution -/

/-- Claim C8: when instance resolution succeeds, a record appears in the
result exactly for the running instances whose owning spot request
identifier is present and a member of the batch identifier set; instances
with an absent or foreign request identifier never contribute a record. -/
theorem claim_C8 (sirIDList : List String) :
    ∀ (instancesData : List InstanceRecord) (res : List ResolvedInstance),
      resolveLoop sirIDList instancesData = .ok res →
      (∀ x ∈ res, ∃ r ∈ instancesData,
        (∃ id, r.spotInstanceRequestId = some id ∧ id ∈ sirIDList) ∧
        r.instanceId = x.instanceId ∧ r.publicIpAddress = some x.publicIpAddress ∧
        r.privateIpAddress = some x.privateIpAddress) ∧
      (∀ r ∈ instancesData, ∀ id, r.spotInstanceRequestId = some id → id ∈ sirIDList →
        ∃ pub priv, r.publicIpAddress = some pub ∧ r.privateIpAddress = some priv ∧
          (⟨r.instanceId, pub, priv⟩ : ResolvedInstance) ∈ res) := by
  intro instancesData
  induction instancesData with
  | nil =>
    intro res h
    simp only [resolveLoop, Except.ok.injEq] at h
    subst h
    exact ⟨by simp, by simp⟩
  | cons r0 rest ih =>
    intro res h
    rcases hs : r0.spotInstanceRequestId with _ | id0
    · simp only [resolveLoop, hs] at h
      obtain ⟨h1, h2⟩ := ih res h
      constructor
      · intro x hx
        obtain ⟨r, hr, hp⟩ := h1 x hx
        exact ⟨r, List.mem_cons_of_mem _ hr, hp⟩
      · intro r hr id hid hmem
        rcases List.mem_cons.mp hr with rfl | hr2
        · rw [hs] at hid
          cases hid
        · exact h2 r hr2 id hid hmem
    · by_cases hmem0 : id0 ∈ sirIDList
      · rcases hpub : r0.publicIpAddress with _ | pub
        · simp [resolveLoop, hs, hmem0, hpub] at h
        · rcases hpriv : r0.privateIpAddress with _ | priv
          · simp [resolveLoop, hs, hmem0, hpub, hpriv] at h
          · rcases hrest : resolveLoop sirIDList rest with e | l
            · simp [resolveLoop, hs, hmem0, hpub, hpriv, hrest] at h
            · simp only [resolveLoop, hs, if_pos hmem0, hpub, hpriv, hrest,
                Except.ok.injEq] at h
              subst h
              obtain ⟨h1, h2⟩ := ih l hrest
              constructor
              · intro x hx
                rcases List.mem_cons.mp hx with rfl | hx2
                · exact ⟨r0, List.mem_cons_self _ _, ⟨id0, hs, hmem0⟩, rfl, hpub, hpriv⟩
                · obtain ⟨r, hr, hp⟩ := h1 x hx2
                  exact ⟨r, List.mem_cons_of_mem _ hr, hp⟩
              · intro r hr id hid hmemid
                rcases List.mem_cons.mp hr with rfl | hr2
                · exact ⟨pub, priv, hpub, hpriv, List.mem_cons_self _ _⟩
                · obtain ⟨p2, pr2, ha, hb, hc2⟩ := h2 r hr2 id hid hmemid
                  exact ⟨p2, pr2, ha, hb, List.mem_cons_of_mem _ hc2⟩
      · simp only [resolveLoop, hs, if_neg hmem0] at h
        obtain ⟨h1, h2⟩ := ih res h
        constructor
        · intro x hx
          obtain ⟨r, hr, hp⟩ := h1 x hx
          exact ⟨r, List.mem_cons_of_mem _ hr, hp⟩
        · intro r hr id hid hmemid
          rcases List.mem_cons.mp hr with rfl | hr2
          · rw [hs] at hid
            injection hid with hEq
            subst hEq
            exact absurd hmemid hmem0
          · exact h2 r hr2 id hid hmemid

/-- Witness for C8: one matching instance, one instance owned by a foreign
request, and one instance with no request identifier; only the first
contributes a record. -/
theorem claim_C8_witness :
    ∃ pub priv, some "1.1.1.1" = some pub ∧ some "10.0.0.1" = some priv ∧
      (⟨"i-1", pub, priv⟩ : ResolvedInstance) ∈ [(⟨"i-1", "1.1.1.1", "10.0.0.1"⟩ : ResolvedInstance)] :=
  (claim_C8 ["sir-1"]
      [⟨"i-1", some "sir-1", some "1.1.1.1", some "10.0.0.1"⟩,
       ⟨"i-2", some "sir-other", some "2.2.2.2", some "10.0.0.2"⟩,
       ⟨"i-3", none, some "3.3.3.3", some "10.0.0.3"⟩]
      [⟨"i-1", "1.1.1.1", "10.0.0.1"⟩] rfl).2
    ⟨"i-1", some "sir-1", some "1.1.1.1", some "10.0.0.1"⟩
    (List.mem_cons_self _ _) "sir-1" rfl (by simp)

/-- Claim C9 counterexample: a fulfilled instance whose provider record has
no public address makes the resolution comprehension raise `KeyError`
instead of producing a record with the value absent. -/
theorem claim_C9_counterexample :
    resolveLoop ["sir-1"] [⟨"i-1", some "sir-1", none, some "10.0.0.1"⟩] =
      .error "KeyError: PublicIpAddress" := rfl

/-- Claim C9 (amended): the resolution step reads `PublicIpAddress` with an
unguarded dict access, so whenever a selected instance record lacks the
public address, the whole resolution fails with a `KeyError` rather than
succeeding with the value absent. -/
theorem claim_C9_amended (sirIDList : List String) :
    ∀ (instancesData : List InstanceRecord) (r : InstanceRecord),
      r ∈ instancesData →
      ∀ id, r.spotInstanceRequestId = some id → id ∈ sirIDList →
      r.publicIpAddress = none →
      ∃ msg, resolveLoop sirIDList instancesData = .error msg := by
  intro instancesData
  induction instancesData with
  | nil => intro r hr; cases hr
  | cons r0 rest ih =>
    intro r hr id hid hmem hpub
    rcases List.mem_cons.mp hr with rfl | hr2
    · exact ⟨"KeyError: PublicIpAddress", by simp [resolveLoop, hid, hmem, hpub]⟩
    · rcases hs : r0.spotInstanceRequestId with _ | id0
      · obtain ⟨msg, hmsg⟩ := ih r hr2 id hid hmem hpub
        exact ⟨msg, by simp [resolveLoop, hs, hmsg]⟩
      · by_cases hm0 : id0 ∈ sirIDList
        · rcases hp0 : r0.publicIpAddress with _ | pub0
          · exact ⟨"KeyError: PublicIpAddress", by simp [resolveLoop, hs, hm0, hp0]⟩
          · rcases hpr0 : r0.privateIpAddress with _ | priv0
            · exact ⟨"KeyError: PrivateIpAddress",
                by simp [resolveLoop, hs, hm0, hp0, hpr0]⟩
            · obtain ⟨msg, hmsg⟩ := ih r hr2 id hid hmem hpub
              exact ⟨msg, by simp [resolveLoop, hs, hm0, hp0, hpr0, hmsg]⟩
        · obtain ⟨msg, hmsg⟩ := ih r hr2 id hid hmem hpub
          exact ⟨msg, by simp [resolveLoop, hs, hm0, hmsg]⟩

/-- Witness for the amended C9. -/
theorem claim_C9_amended_witness :
    ∃ msg, resolveLoop ["sir-9"]
        [⟨"i-8", some "sir-other", some "8.8.8.8", some "10.0.0.8"⟩,
         ⟨"i-9", some "sir-9", none, some "10.0.0.9"⟩] = .error msg :=
  claim_C9_amended ["sir-9"]
    [⟨"i-8", some "sir-other", some "8.8.8.8", some "10.0.0.8"⟩,
     ⟨"i-9", some "sir-9", none, some "10.0.0.9"⟩]
    ⟨"i-9", some "sir-9", none, some "10.0.0.9"⟩
    (by simp) "sir-9" rfl (by simp) rfl

end LaunchEC2Spots
